import Mathlib

/-!
Shallow embedding of `src/document/dom/stack.c` (ELinks DOM stack walker):
the frame store, the push/pop protocol, ancestor search with targeted
unwind, and the iterative walk driver.

The node model (`node.h`), the stack accessors (`stack.h`) and the
allocator (`util/memory.h`) are not part of the given sources; those
pieces are modelled from the specification and are marked as such in
their doc comments.  Everything else is translated directly from
`stack.c`.
-/

namespace DomStackProof

/-- Node kinds that carry no child collections (the `default` arm of the
walk driver's switch).  Modelled from the spec: the fixed enumeration of
node kinds in `node.h` is not among the given sources. -/
inductive LeafKind where
  | attributeL
  | textL
  | cdataSectionL
  | entityReferenceL
  | entityL
  | commentL
  | documentFragmentL
  | notationL
deriving DecidableEq, Repr

/-- The full node-kind enumeration (`enum dom_node_type`).  Modelled from
the spec: `node.h` is not among the given sources. -/
inductive DomNodeType where
  | documentT
  | elementT
  | procInstructionT
  | documentTypeT
  | attributeT
  | textT
  | cdataSectionT
  | entityReferenceT
  | entityT
  | commentT
  | documentFragmentT
  | notationT
deriving DecidableEq, Repr

/-- A DOM node (`struct dom_node`).  Modelled from the spec: each node has
a kind, a name, and per-kind up to two child collections (Document:
children; Element: attribute map then children; ProcessingInstruction:
attribute-like map; DocumentType: entities then notations).  A collection
is `Option (List DomNode)`: `none` models a NULL collection pointer. -/
inductive DomNode where
  | document (name : String) (children : Option (List DomNode))
  | element (name : String) (map : Option (List DomNode)) (children : Option (List DomNode))
  | procInstruction (name : String) (map : Option (List DomNode))
  | documentType (name : String) (entities : Option (List DomNode)) (nots : Option (List DomNode))
  | leaf (k : LeafKind) (name : String)
deriving Repr

/-- The `node->type` discriminant of a node. -/
def DomNode.ntype : DomNode → DomNodeType
  | .document _ _ => .documentT
  | .element _ _ _ => .elementT
  | .procInstruction _ _ => .procInstructionT
  | .documentType _ _ _ => .documentTypeT
  | .leaf .attributeL _ => .attributeT
  | .leaf .textL _ => .textT
  | .leaf .cdataSectionL _ => .cdataSectionT
  | .leaf .entityReferenceL _ => .entityReferenceT
  | .leaf .entityL _ => .entityT
  | .leaf .commentL _ => .commentT
  | .leaf .documentFragmentL _ => .documentFragmentT
  | .leaf .notationL _ => .notationT

/-- The node's name string (used by the ancestor search). -/
def DomNode.name : DomNode → String
  | .document n _ => n
  | .element n _ _ => n
  | .procInstruction n _ => n
  | .documentType n _ _ => n
  | .leaf _ n => n

/-- The value of a `struct dom_node_list *` pointer as compared by the
walk driver: NULL, or a pointer to the current node's first (primary) or
second (secondary) collection slot.  Distinct non-null slots of one node
are distinct allocations, so pointer equality is equality of this tag. -/
inductive ListPtr where
  | nullP
  | primaryP
  | secondaryP
deriving DecidableEq, Repr

/-- Pointer value stored in a node's collection slot: NULL when the slot
holds no list, otherwise the non-null pointer to that slot's list. -/
def slotPtr (which : ListPtr) (slot : Option (List DomNode)) : ListPtr :=
  if slot.isSome then which else .nullP

/-- Dereference a list pointer against the node it points into
(`node->data.<kind>.<field>`). -/
def listDeref (node : DomNode) (p : ListPtr) : Option (List DomNode) :=
  match p with
  | .nullP => none
  | .primaryP =>
    match node with
    | .document _ children => children
    | .element _ m _ => m
    | .procInstruction _ m => m
    | .documentType _ entities _ => entities
    | .leaf _ _ => none
  | .secondaryP =>
    match node with
    | .element _ _ children => children
    | .documentType _ _ nots => nots
    | _ => none

/-- `is_dom_node_list_member(list, index)`.  Modelled from the spec:
bounds-checked membership test, false for an out-of-range index or a NULL
collection (`node.h` is not among the given sources). -/
def is_dom_node_list_member (l : Option (List DomNode)) (i : Nat) : Bool :=
  match l with
  | none => false
  | some xs => i < xs.length

/-- A callback value (`dom_stack_callback_T` function pointer): an
identity used to observe invocations, and the entry behaviour — given the
node, return the accepted (possibly substitute) node or `none` to
reject. -/
structure Callback where
  id : Nat
  fn : DomNode → Option DomNode

/-- One visit frame (`struct dom_stack_state`): the node of this depth,
the exit-callback field, the active child-list pointer, the cursor into
it, and the payload pointer (`some k` = pointer into the payload array at
slot `k`; `none` = NULL). -/
structure DomStackFrame where
  node : DomNode
  callback : Option Callback
  list : ListPtr
  index : Nat
  data : Option Nat

/-- The stack (`struct dom_stack`): the frame array (index 0 = bottom,
last = top; its length is `stack->depth`), the kind-indexed entry
callback table, the configured payload size and the configured maximum
depth.  `max_depth` is modelled from the spec: `DOM_STACK_MAX_DEPTH` is a
fixed constant in `stack.h`, which is not among the given sources, so it
is carried as configuration here. -/
structure DomStack where
  states : List DomStackFrame
  callbacks : DomNodeType → Option Callback
  object_size : Nat
  max_depth : Nat

/-- `stack->depth`. -/
def DomStack.depth (stack : DomStack) : Nat := stack.states.length

/-- Outcome of the allocator on the two growth calls of one push.
Modelled from the spec: `mem_align_alloc` (`util/memory.h`) may fail; its
success is an oracle here. -/
structure AllocOracle where
  statesOk : Bool
  objectsOk : Bool

/-- Allocation oracle on which every growth call succeeds. -/
def allocOK : AllocOracle := ⟨true, true⟩

/-- Which path `push_dom_node` took. -/
inductive PushOutcome where
  | depthExceeded
  | oomStates
  | oomObjects
  | rejected
  | accepted (n : DomNode)

/-- Result of `push_dom_node`: the path taken, the stack afterwards, and
whether `done_dom_node` was called on the pushed node. -/
structure PushResult where
  outcome : PushOutcome
  stack : DomStack
  destroyed : Bool

/-- The C return value of the push: the accepted node, or NULL. -/
def PushResult.ret (r : PushResult) : Option DomNode :=
  match r.outcome with
  | .accepted n => some n
  | _ => none

/-- `push_dom_node(stack, node)`.  Fails early when
`stack->depth > DOM_STACK_MAX_DEPTH`; destroys the node and fails when
either growth call fails; otherwise writes the new frame (note: the
frame's `callback` field is never assigned by the C code — the freshly
grown slot is zeroed, so it stays NULL), increments the depth, then
invokes the entry callback registered for `node->type`, clearing the
frame and decrementing the depth again when it rejects. -/
def push_dom_node (stack : DomStack) (node : DomNode) (alloc : AllocOracle) : PushResult :=
  if stack.depth > stack.max_depth then
    ⟨.depthExceeded, stack, false⟩
  else if alloc.statesOk = false then
    ⟨.oomStates, stack, true⟩
  else if stack.object_size ≠ 0 ∧ alloc.objectsOk = false then
    ⟨.oomObjects, stack, true⟩
  else
    let frame : DomStackFrame :=
      { node := node
        callback := none
        list := .nullP
        index := 0
        data := if stack.object_size ≠ 0 then some stack.depth else none }
    let stack1 : DomStack := { stack with states := stack.states ++ [frame] }
    match stack.callbacks node.ntype with
    | none => ⟨.accepted node, stack1, false⟩
    | some cb =>
      match cb.fn node with
      | some n => ⟨.accepted n, stack1, false⟩
      | none => ⟨.rejected, stack, false⟩

/-- An observed exit-callback invocation: the callback's identity, the
node argument (`none` models a read through a pointer outside the live
frame array), and the payload pointer argument. -/
structure ExitEvent where
  cb : Nat
  arg : Option DomNode
  data : Option Nat

/-- `dom_stack_has_parents(stack)`.  Modelled from the spec: Pop is a
no-op when the stack holds no open frame (`stack.h` is not among the
given sources). -/
def dom_stack_has_parents (stack : DomStack) : Bool :=
  stack.depth > 0

/-- The node read through the frame pointer `&stack->states[i]` (frames
are addressed by their index from the bottom); `none` when the index is
outside the live frames. -/
def parentNodeAt (stack : DomStack) (i : Int) : Option DomNode :=
  if 0 ≤ i then (stack.states.get? i.toNat).map (fun f => f.node) else none

/-- Result of `do_pop_dom_node`: the stack afterwards, the exit-callback
invocations it performed, and the C return value — whether the popped
frame was the targeted `parent` frame (pointer comparison
`state == parent`). -/
structure PopResult where
  stack : DomStack
  trace : List ExitEvent
  hitParent : Bool

/-- `do_pop_dom_node(stack, parent)` with `parent = &stack->states[i]`.
Invokes the top frame's `callback` field (when set) with the target
frame's node — "Pass the node we are popping to and _not_ the
state->node" — and the popped frame's payload pointer, then removes and
clears the top frame. -/
def do_pop_dom_node (stack : DomStack) (parentIdx : Int) : PopResult :=
  if dom_stack_has_parents stack = false then
    ⟨stack, [], false⟩
  else
    match stack.states.getLast? with
    | none => ⟨stack, [], false⟩
    | some state =>
      let trace : List ExitEvent :=
        match state.callback with
        | none => []
        | some cb => [⟨cb.id, parentNodeAt stack parentIdx, state.data⟩]
      ⟨{ stack with states := stack.states.dropLast }, trace,
        ((stack.depth : Int) - 1 = parentIdx)⟩

/-- `pop_dom_node(stack)`: a single pop targeting
`get_dom_stack_parent(stack)`, the frame immediately below the top
(index `depth - 2` from the bottom). -/
def pop_dom_node (stack : DomStack) : PopResult :=
  if dom_stack_has_parents stack = false then
    ⟨stack, [], false⟩
  else
    do_pop_dom_node stack ((stack.depth : Int) - 2)

/-- Whether the frame matches the (kind, name) pair of an ancestor
search. -/
def frameMatches (t : DomNodeType) (name : String) (f : DomStackFrame) : Bool :=
  f.node.ntype = t ∧ f.node.name = name

/-- Scan of a top-first frame sequence for the first (kind, name) match,
returning the matching frame's index from the bottom of the stack. -/
def searchAux (t : DomNodeType) (name : String) : List DomStackFrame → Option Nat
  | [] => none
  | f :: rest =>
    if frameMatches t name f then some rest.length else searchAux t name rest

/-- `search_dom_stack(stack, type, string, length)`.  Modelled from the
spec: scans the frames from the current top down toward the root and
returns the nearest frame whose node has the given kind and whose name
matches by exact comparison, or "not found" (`stack.h` is not among the
given sources).  The result is the frame's index from the bottom (its
address in the frame array). -/
def search_dom_stack (stack : DomStack) (t : DomNodeType) (name : String) : Option Nat :=
  searchAux t name stack.states.reverse

/-- The `foreachback_dom_state` loop of `pop_dom_nodes`: repeatedly pop
the top frame until `do_pop_dom_node` reports that the popped frame was
the target.  Modelled from the spec's unwind loop; the fuel bounds the
iteration like the downward-counting position of the C macro. -/
def unwindLoop (parentIdx : Nat) : Nat → DomStack → DomStack × List ExitEvent
  | 0, stack => (stack, [])
  | fuel + 1, stack =>
    let r := do_pop_dom_node stack (parentIdx : Int)
    if r.hitParent then (r.stack, r.trace)
    else
      let rest := unwindLoop parentIdx fuel r.stack
      (rest.1, r.trace ++ rest.2)

/-- `pop_dom_nodes(stack, type, string, length)` (UnwindTo): search for
the nearest matching ancestor frame; when found, pop frames from the top
down to and including it, each pop targeting that frame; when not found,
do nothing. -/
def pop_dom_nodes (stack : DomStack) (t : DomNodeType) (name : String) :
    DomStack × List ExitEvent :=
  if dom_stack_has_parents stack = false then (stack, [])
  else
    match search_dom_stack stack t name with
    | none => (stack, [])
    | some i => unwindLoop i stack.depth stack

/-- The `switch (node->type)` of `walk_dom_nodes`: from the frame's
stored list pointer and cursor, compute the list pointer the iteration
works with (start the primary collection, or switch from an exhausted
primary to the secondary). -/
def walkSelect (node : DomNode) (stList : ListPtr) (index : Nat) : ListPtr :=
  match node with
  | .document _ children =>
    if stList = .nullP then slotPtr .primaryP children else stList
  | .element _ m children =>
    let list := if stList = .nullP then slotPtr .primaryP m else stList
    let cptr := slotPtr .secondaryP children
    if list = cptr then list
    else if is_dom_node_list_member (listDeref node list) index
            && list = slotPtr .primaryP m then list
    else cptr
  | .procInstruction _ m =>
    if stList = .nullP then slotPtr .primaryP m else stList
  | .documentType _ entities nots =>
    let list := if stList = .nullP then slotPtr .primaryP entities else stList
    let nptr := slotPtr .secondaryP nots
    if list = nptr then list
    else if is_dom_node_list_member (listDeref node list) index
            && list = slotPtr .primaryP entities then list
    else nptr
  | .leaf _ _ => stList

/-- Observable events of the walk driver: a node whose push was accepted
(a frame was created and kept), a child whose push returned NULL, a frame
removed by `pop_dom_node` (identified by its node), and an exit-callback
invocation. -/
inductive WalkEvent where
  | visited (n : DomNode)
  | pushFailed (n : DomNode)
  | poppedFrame (n : DomNode)
  | exited (cb : Nat) (arg : Option DomNode) (data : Option Nat)

/-- Replace the top frame of a non-empty stack. -/
def setTopFrame (stack : DomStack) (f : DomStackFrame) : DomStack :=
  { stack with states := stack.states.dropLast ++ [f] }

/-- `pop_dom_node` together with its observable walk events: the exit
invocations it performs and the identity of the removed frame. -/
def popWithEvents (stack : DomStack) : DomStack × List WalkEvent :=
  match stack.states.getLast? with
  | none => (stack, [])
  | some top =>
    let pr := pop_dom_node stack
    (pr.stack,
      pr.trace.map (fun e => WalkEvent.exited e.cb e.arg e.data)
        ++ [.poppedFrame top.node])

/-- The list-selection and reset step of one walk iteration: compute the
active list via the switch and, when it differs from the stored one,
record it in the frame and reset the cursor ("Reset list state if it is a
new list"). -/
def walkAdvance (state : DomStackFrame) : DomStackFrame :=
  let list := walkSelect state.node state.list state.index
  if list ≠ state.list then { state with list := list, index := 0 } else state

/-- One iteration of the `while` body of `walk_dom_nodes`: select the
active list, reset the frame's list state if it changed, and either push
the member at the cursor (descending on success, popping the current
frame on failure) or pop the exhausted frame. -/
def walkIter (alloc : AllocOracle) (stack : DomStack) : DomStack × List WalkEvent :=
  match stack.states.getLast? with
  | none => (stack, [])
  | some state0 =>
    let state := walkAdvance state0
    if is_dom_node_list_member (listDeref state.node state.list) state.index then
      let child := ((listDeref state.node state.list).getD []).getD state.index (.leaf .textL "")
      let stack2 := setTopFrame stack { state with index := state.index + 1 }
      let r := push_dom_node stack2 child alloc
      match r.outcome with
      | .accepted _ => (r.stack, [.visited child])
      | _ =>
        let p := popWithEvents r.stack
        (p.1, .pushFailed child :: p.2)
    else
      popWithEvents (setTopFrame stack state)

/-- The `while (dom_stack_has_parents(stack))` loop of `walk_dom_nodes`,
bounded by fuel. -/
def walkLoop (alloc : AllocOracle) : Nat → DomStack → DomStack × List WalkEvent
  | 0, stack => (stack, [])
  | fuel + 1, stack =>
    if dom_stack_has_parents stack = false then (stack, [])
    else
      let (st1, ev) := walkIter alloc stack
      let rest := walkLoop alloc fuel st1
      (rest.1, ev ++ rest.2)

/-- `walk_dom_nodes(stack, root)`: push the root, then run the iterative
traversal loop. -/
def walk_dom_nodes (alloc : AllocOracle) (stack : DomStack) (root : DomNode)
    (fuel : Nat) : DomStack × List WalkEvent :=
  let r := push_dom_node stack root alloc
  let ev0 : List WalkEvent :=
    match r.outcome with
    | .accepted _ => [.visited root]
    | _ => [.pushFailed root]
  let rest := walkLoop alloc fuel r.stack
  (rest.1, ev0 ++ rest.2)

/-- The nodes of the `visited` events of a trace, in order. -/
def visitedNodes (tr : List WalkEvent) : List DomNode :=
  tr.filterMap (fun e => match e with | .visited n => some n | _ => none)

/-- The nodes of the `poppedFrame` events of a trace, in order. -/
def poppedNodes (tr : List WalkEvent) : List DomNode :=
  tr.filterMap (fun e => match e with | .poppedFrame n => some n | _ => none)

/-- Whether a push outcome is the early depth-check failure. -/
def PushOutcome.isDepthExceeded : PushOutcome → Bool
  | .depthExceeded => true
  | _ => false

/-! Concrete fixtures: the Document → Element "div" → Element "span" →
Text "x" tree of the spec's walk scenario, and small stacks. -/

/-- Text node "x". -/
def exText : DomNode := .leaf .textL "x"

/-- Element "span" whose children list is the Text "x". -/
def exSpan : DomNode := .element "span" none (some [exText])

/-- Element "div" whose children list is the span. -/
def exDiv : DomNode := .element "div" none (some [exSpan])

/-- The Document root with child div. -/
def exDoc : DomNode := .document "doc" (some [exDiv])

/-- An entry callback that accepts every node unchanged. -/
def idCb : Callback := ⟨1, fun n => some n⟩

/-- A callback table registering the accepting callback for every kind. -/
def acceptAll : DomNodeType → Option Callback := fun _ => some idCb

/-- An empty callback table. -/
def noCb : DomNodeType → Option Callback := fun _ => none

/-- A fresh stack with all-accepting callbacks registered. -/
def exWalkStack : DomStack := ⟨[], acceptAll, 0, 16⟩

/-- Build a frame in its freshly pushed shape around a node. -/
def mkFrame (n : DomNode) (cb : Option Callback) : DomStackFrame :=
  ⟨n, cb, .nullP, 0, none⟩

/-- An entry callback that rejects every node. -/
def rejectCb : Callback := ⟨2, fun _ => none⟩

/-- A stack (with per-frame payloads configured) whose entry callbacks
reject everything. -/
def exRejectStack : DomStack := ⟨[], fun _ => some rejectCb, 4, 16⟩

/-- A stack whose depth equals its configured maximum. -/
def exMaxStack : DomStack := ⟨[mkFrame exDoc none, mkFrame exDiv none], noCb, 0, 2⟩

/-- A stack whose depth strictly exceeds its configured maximum. -/
def exOverStack : DomStack := ⟨[mkFrame exDoc none], noCb, 0, 0⟩

/-- The substitute node an entry callback may hand back. -/
def exSubNode : DomNode := .leaf .commentL "sub"

/-- An entry callback substituting `exSubNode` for any node named
"div". -/
def substCb : Callback := ⟨3, fun n => if n.name = "div" then some exSubNode else some n⟩

/-- A stack registering the substituting callback for every kind. -/
def exSubStack : DomStack := ⟨[], fun _ => some substCb, 0, 16⟩

/-- An exit callback with identity 7 (set directly on a frame, as a
stack user's callback would be once recorded). -/
def exitCb7 : Callback := ⟨7, fun n => some n⟩

/-- A two-frame stack whose top frame carries exit callback 7. -/
def exPopStack : DomStack :=
  ⟨[mkFrame exDoc none, mkFrame exDiv (some exitCb7)], noCb, 0, 16⟩

/-- A family of accepting exit callbacks distinguished by identity. -/
def exitCb (n : Nat) : Callback := ⟨n, fun x => some x⟩

/-- The Document/div/span/text stack with exit callbacks 10..13 recorded
on its frames, bottom to top. -/
def exUnwindStack : DomStack :=
  ⟨[mkFrame exDoc (some (exitCb 10)), mkFrame exDiv (some (exitCb 11)),
    mkFrame exSpan (some (exitCb 12)), mkFrame exText (some (exitCb 13))],
   noCb, 0, 16⟩

/-- Text node "t1", an accepted first child. -/
def exT1 : DomNode := .leaf .textL "t1"

/-- Text node "bad", which the rejecting callback vetoes. -/
def exBad : DomNode := .leaf .textL "bad"

/-- Text node "t3", a later sibling after the rejected child. -/
def exT3 : DomNode := .leaf .textL "t3"

/-- Element "p" with children t1, bad, t3 and no attribute map. -/
def exP : DomNode := .element "p" none (some [exT1, exBad, exT3])

/-- An entry callback rejecting exactly the nodes named "bad". -/
def rejBadCb : Callback := ⟨4, fun n => if n.name = "bad" then none else some n⟩

/-- A fresh stack registering the "bad"-rejecting callback for every
kind. -/
def exRejBadStack : DomStack := ⟨[], fun _ => some rejBadCb, 0, 16⟩

/-- Attribute node named "bad" (a primary-collection member that gets
rejected). -/
def exABad : DomNode := .leaf .attributeL "bad"

/-- Text node "k", the member of a secondary collection that is never
started. -/
def exK : DomNode := .leaf .textL "k"

/-- Element "q" with attribute map containing the rejected attribute and
children containing Text "k". -/
def exQ : DomNode := .element "q" (some [exABad]) (some [exK])

/-- A one-frame stack on Element "p" whose cursor sits at the
to-be-rejected child "bad". -/
def exIterStack : DomStack :=
  ⟨[⟨exP, none, .secondaryP, 1, none⟩], fun _ => some rejBadCb, 0, 16⟩

/-! Claim theorems C1 — C6. -/

/-- Claim C1 (code bug): the spec says the registered entry callback is
also recorded as the new frame's `exitCallback`, but `push_dom_node`
never assigns `state->callback` — the freshly grown, zeroed slot keeps a
NULL callback even though an entry callback is registered and the push is
accepted, so `do_pop_dom_node`'s exit dispatch can never fire for frames
built by push.  Evaluated at the failing input. -/
theorem push_does_not_record_entry_callback :
    (exWalkStack.callbacks exDiv.ntype).isSome = true ∧
    (push_dom_node exWalkStack exDiv allocOK).ret = some exDiv ∧
    ((push_dom_node exWalkStack exDiv allocOK).stack.states.getLast?.map
      (fun f => f.callback.isSome)) = some false :=
  ⟨rfl, rfl, rfl⟩

/-- Claim C2: when the entry callback rejects (returns NULL), the frame
is cleared, the depth is back to its pre-push value (the frame list is
exactly the original one), push returns NULL, and the node is not
destroyed. -/
theorem push_rejection_restores_stack (stack : DomStack) (node : DomNode)
    (alloc : AllocOracle) (cb : Callback)
    (hd : ¬ stack.depth > stack.max_depth)
    (ha : alloc.statesOk = true)
    (hb : stack.object_size = 0 ∨ alloc.objectsOk = true)
    (hc : stack.callbacks node.ntype = some cb)
    (hr : cb.fn node = none) :
    (push_dom_node stack node alloc).ret = none ∧
    (push_dom_node stack node alloc).stack.states = stack.states ∧
    (push_dom_node stack node alloc).destroyed = false := by
  have hb' : ¬ (stack.object_size ≠ 0 ∧ alloc.objectsOk = false) := by
    rcases hb with h | h
    · intro hx; exact hx.1 h
    · intro hx; rw [h] at hx; exact Bool.noConfusion hx.2
  simp [push_dom_node, hd, ha, hb', hc, hr, PushResult.ret]

/-- Claim C2 witness: the rejection path at a concrete input. -/
theorem push_rejection_restores_stack_witness :
    (push_dom_node exRejectStack exDiv allocOK).ret = none ∧
    (push_dom_node exRejectStack exDiv allocOK).stack.states = exRejectStack.states ∧
    (push_dom_node exRejectStack exDiv allocOK).destroyed = false :=
  push_rejection_restores_stack exRejectStack exDiv allocOK rejectCb
    (by decide) rfl (Or.inr rfl) rfl rfl

/-- Claim C3: when growing the frame array or the payload array fails,
push fails (returns NULL) and the stack destroys the node being
pushed. -/
theorem push_alloc_failure_destroys_node (stack : DomStack) (node : DomNode)
    (alloc : AllocOracle)
    (hd : ¬ stack.depth > stack.max_depth)
    (hf : alloc.statesOk = false ∨ (stack.object_size ≠ 0 ∧ alloc.objectsOk = false)) :
    (push_dom_node stack node alloc).ret = none ∧
    (push_dom_node stack node alloc).destroyed = true := by
  rcases hf with h | h
  · simp [push_dom_node, hd, h, PushResult.ret]
  · rcases ha : alloc.statesOk with _ | _
    · simp [push_dom_node, hd, ha, PushResult.ret]
    · simp [push_dom_node, hd, ha, h, PushResult.ret]

/-- Claim C3 witness: a failing frame-array growth at a concrete
input. -/
theorem push_alloc_failure_destroys_node_witness :
    (push_dom_node exWalkStack exDiv ⟨false, true⟩).ret = none ∧
    (push_dom_node exWalkStack exDiv ⟨false, true⟩).destroyed = true :=
  push_alloc_failure_destroys_node exWalkStack exDiv ⟨false, true⟩
    (by decide) (Or.inl rfl)

/-- Claim C4 counterexample: on a stack whose depth equals the configured
maximum, push does not fail — the depth guard is `depth > max`, so the
push is attempted, succeeds, and the depth grows. -/
theorem push_at_max_depth_attempted :
    exMaxStack.depth = exMaxStack.max_depth ∧
    ¬ ((push_dom_node exMaxStack exSpan allocOK).ret = none) ∧
    ¬ ((push_dom_node exMaxStack exSpan allocOK).stack.depth = exMaxStack.depth) := by
  refine ⟨rfl, ?_, by decide⟩
  intro h
  have h2 : (push_dom_node exMaxStack exSpan allocOK).ret = some exSpan := rfl
  rw [h] at h2
  exact Option.noConfusion h2

/-- Claim C4 as amended: a push on a stack whose depth strictly exceeds
the configured maximum fails (DepthExceeded), leaving the frames and the
depth unchanged and not destroying the node; a push at depth equal to the
maximum is still attempted. -/
theorem push_above_max_fails_unchanged (stack : DomStack) (node : DomNode)
    (alloc : AllocOracle)
    (h : stack.depth > stack.max_depth) :
    (push_dom_node stack node alloc).outcome.isDepthExceeded = true ∧
    (push_dom_node stack node alloc).ret = none ∧
    (push_dom_node stack node alloc).stack.states = stack.states ∧
    (push_dom_node stack node alloc).destroyed = false := by
  simp [push_dom_node, h, PushResult.ret, PushOutcome.isDepthExceeded]

/-- Claim C4 witness: the DepthExceeded path at a concrete input. -/
theorem push_above_max_fails_unchanged_witness :
    (push_dom_node exOverStack exSpan allocOK).outcome.isDepthExceeded = true ∧
    (push_dom_node exOverStack exSpan allocOK).ret = none ∧
    (push_dom_node exOverStack exSpan allocOK).stack.states = exOverStack.states ∧
    (push_dom_node exOverStack exSpan allocOK).destroyed = false :=
  push_above_max_fails_unchanged exOverStack exSpan allocOK (by decide)

/-- Claim C5: push takes the DepthExceeded failure path exactly when the
current depth strictly exceeds the configured maximum (`depth > max`, not
`>=`): a push at depth equal to the maximum is still attempted. -/
theorem push_depth_exceeded_iff_strictly_above_max (stack : DomStack)
    (node : DomNode) (alloc : AllocOracle) :
    (push_dom_node stack node alloc).outcome.isDepthExceeded = true ↔
      stack.depth > stack.max_depth := by
  by_cases h : stack.depth > stack.max_depth
  · simp [push_dom_node, h, PushOutcome.isDepthExceeded]
  · constructor
    · intro hx
      exfalso
      simp only [push_dom_node, if_neg h] at hx
      split_ifs at hx
      all_goals (
        try simp [PushOutcome.isDepthExceeded] at hx
        all_goals (
          rcases hc : stack.callbacks node.ntype with _ | cb
          · simp [hc, PushOutcome.isDepthExceeded] at hx
          · rcases hf : cb.fn node with _ | n
            · simp [hc, hf, PushOutcome.isDepthExceeded] at hx
            · simp [hc, hf, PushOutcome.isDepthExceeded] at hx))
    · intro hx
      exact absurd hx h

/-- Claim C6 counterexample: an entry callback returning a substitute
node makes push return the substitute, but the top frame's `node` field
keeps the originally pushed node — `state->node` is assigned before the
callback runs and is never updated — so the frame does not refer to the
substitute. -/
theorem push_substitute_not_in_frame :
    (push_dom_node exSubStack exDiv allocOK).ret = some exSubNode ∧
    ((push_dom_node exSubStack exDiv allocOK).stack.states.getLast?.map
      (fun f => f.node)) = some exDiv ∧
    exDiv ≠ exSubNode :=
  ⟨rfl, rfl, fun h => DomNode.noConfusion h⟩

/-- Claim C6 as amended: when the entry callback returns a substitute,
push returns the substitute node, but the top frame's `node` field still
refers to the originally pushed node, so the walk driver iterates the
original node's child collections (demonstrated on the scenario tree,
where the substitute is a childless leaf yet div's subtree is still
visited). -/
theorem push_substitute_returned_original_kept :
    (∀ (stack : DomStack) (node subst : DomNode) (alloc : AllocOracle) (cb : Callback),
      ¬ stack.depth > stack.max_depth →
      alloc.statesOk = true →
      stack.object_size = 0 ∨ alloc.objectsOk = true →
      stack.callbacks node.ntype = some cb →
      cb.fn node = some subst →
      (push_dom_node stack node alloc).ret = some subst ∧
      ((push_dom_node stack node alloc).stack.states.getLast?.map
        (fun f => f.node)) = some node) ∧
    visitedNodes (walk_dom_nodes allocOK exSubStack exDoc 12).2 =
      [exDoc, exDiv, exSpan, exText] := by
  refine ⟨?_, rfl⟩
  intro stack node subst alloc cb hd ha hb hc hf
  have hb' : ¬ (stack.object_size ≠ 0 ∧ alloc.objectsOk = false) := by
    rcases hb with h | h
    · intro hx; exact hx.1 h
    · intro hx; rw [h] at hx; exact Bool.noConfusion hx.2
  simp [push_dom_node, hd, ha, hb', hc, hf, PushResult.ret]

/-- Claim C6 witness: the substitute path at a concrete input. -/
theorem push_substitute_returned_original_kept_witness :
    (push_dom_node exSubStack exDiv allocOK).ret = some exSubNode ∧
    ((push_dom_node exSubStack exDiv allocOK).stack.states.getLast?.map
      (fun f => f.node)) = some exDiv :=
  push_substitute_returned_original_kept.1 exSubStack exDiv exSubNode allocOK
    substCb (by decide) rfl (Or.inl rfl) rfl rfl

/-- The exit invocations one frame contributes when it is popped toward
the node `target`. -/
def frameExitEvents (f : DomStackFrame) (target : DomNode) : List ExitEvent :=
  match f.callback with
  | none => []
  | some cb => [⟨cb.id, some target, f.data⟩]

/-- Computation rule for `do_pop_dom_node` on a stack decomposed as
`l ++ [top]`. -/
lemma do_pop_concat (stack : DomStack) (l : List DomStackFrame)
    (top : DomStackFrame) (h : stack.states = l ++ [top]) (pIdx : Int) :
    do_pop_dom_node stack pIdx =
      ⟨{ stack with states := l },
        (match top.callback with
         | none => []
         | some cb => [⟨cb.id, parentNodeAt stack pIdx, top.data⟩]),
        decide ((stack.depth : Int) - 1 = pIdx)⟩ := by
  have hne : stack.states ≠ [] := by
    rw [h]; exact List.append_ne_nil_of_right_ne_nil _ (by simp)
  have hp : dom_stack_has_parents stack = true := by
    simp [dom_stack_has_parents, DomStack.depth, List.length_pos, hne]
  have hlast : stack.states.getLast? = some top := by
    rw [h]; exact List.getLast?_concat l
  have hdrop : stack.states.dropLast = l := by
    rw [h]; exact List.dropLast_concat
  unfold do_pop_dom_node
  rw [hp]
  simp only [Bool.true_eq_false, if_false, hlast, hdrop]

/-- The node argument `parent->node` read through a frame pointer with an
in-range index is that frame's node. -/
lemma parentNodeAt_of_get (stack : DomStack) (i : Nat) (p : DomStackFrame)
    (h : stack.states.get? i = some p) :
    parentNodeAt stack (i : Int) = some p.node := by
  unfold parentNodeAt
  rw [if_pos (Int.ofNat_nonneg i)]
  have ht : (Int.toNat (i : Int)) = i := rfl
  rw [ht, h]
  rfl

/-- Claim C7: a plain Pop on a stack with a frame below the top invokes
the top frame's exit callback (when set) with the node of the frame
immediately below the top and the popped frame's payload pointer — never
with the popped frame's own node (whenever the two differ). -/
theorem pop_invokes_exit_callback_with_parent_node (stack : DomStack)
    (f p : DomStackFrame) (cb : Callback)
    (hlen : 2 ≤ stack.depth)
    (htop : stack.states.getLast? = some f)
    (hpar : stack.states.get? (stack.depth - 2) = some p)
    (hcb : f.callback = some cb) :
    (pop_dom_node stack).trace = [⟨cb.id, some p.node, f.data⟩] ∧
    (pop_dom_node stack).stack.states = stack.states.dropLast ∧
    (p.node ≠ f.node →
      ∀ e ∈ (pop_dom_node stack).trace, e.arg ≠ some f.node) := by
  have hne : stack.states ≠ [] := by
    intro hnil
    rw [DomStack.depth, hnil] at hlen
    exact absurd hlen (by decide)
  have hp : dom_stack_has_parents stack = true := by
    simp [dom_stack_has_parents, DomStack.depth, List.length_pos, hne]
  have hdecomp : stack.states = stack.states.dropLast ++ [f] := by
    have h1 := List.dropLast_append_getLast hne
    have h2 : stack.states.getLast hne = f := by
      have := List.getLast?_eq_getLast stack.states hne
      rw [this] at htop
      exact Option.some.inj htop
    rw [h2] at h1
    exact h1.symm
  have hidx : ((stack.depth : Int) - 2) = ((stack.depth - 2 : Nat) : Int) := by
    omega
  have hpop : pop_dom_node stack = do_pop_dom_node stack ((stack.depth : Int) - 2) := by
    unfold pop_dom_node
    rw [hp]
    simp only [Bool.true_eq_false, if_false]
  have hdo := do_pop_concat stack stack.states.dropLast f hdecomp ((stack.depth : Int) - 2)
  have harg : parentNodeAt stack ((stack.depth : Int) - 2) = some p.node := by
    rw [hidx]
    exact parentNodeAt_of_get stack (stack.depth - 2) p hpar
  rw [hpop, hdo]
  refine ⟨?_, rfl, ?_⟩
  · simp only [hcb, harg]
  · intro hne' e he
    simp only [hcb, harg, List.mem_singleton] at he
    subst he
    simp only [ne_eq, Option.some.injEq]
    exact fun hx => hne' hx

/-- Claim C7 witness: a two-frame stack whose top frame has exit
callback 7; the pop passes the bottom frame's node. -/
theorem pop_invokes_exit_callback_with_parent_node_witness :
    (pop_dom_node exPopStack).trace = [⟨7, some exDoc, none⟩] ∧
    (pop_dom_node exPopStack).stack.states = exPopStack.states.dropLast ∧
    ((mkFrame exDoc none).node ≠ (mkFrame exDiv (some exitCb7)).node →
      ∀ e ∈ (pop_dom_node exPopStack).trace,
        e.arg ≠ some (mkFrame exDiv (some exitCb7)).node) :=
  pop_invokes_exit_callback_with_parent_node exPopStack
    (mkFrame exDiv (some exitCb7)) (mkFrame exDoc none) exitCb7
    (by decide) rfl rfl rfl

/-- The exit invocations a whole frame segment contributes when unwound
toward `target`, in top-to-root order (the segment is given
bottom-first). -/
def expectedUnwindTrace (frames : List DomStackFrame) (target : DomNode) : List ExitEvent :=
  match frames with
  | [] => []
  | f :: rest => expectedUnwindTrace rest target ++ frameExitEvents f target

lemma expectedUnwindTrace_concat (l : List DomStackFrame) (a : DomStackFrame)
    (target : DomNode) :
    expectedUnwindTrace (l ++ [a]) target =
      frameExitEvents a target ++ expectedUnwindTrace l target := by
  induction l with
  | nil => simp [expectedUnwindTrace]
  | cons f l ih =>
    rw [List.cons_append]
    show expectedUnwindTrace (l ++ [a]) target ++ frameExitEvents f target = _
    rw [ih, List.append_assoc]
    rfl

lemma searchAux_cons (t : DomNodeType) (name : String) (f : DomStackFrame)
    (rest : List DomStackFrame) :
    searchAux t name (f :: rest) =
      if frameMatches t name f then some rest.length
      else searchAux t name rest := rfl

lemma searchAux_eq_none (t : DomNodeType) (name : String)
    (l : List DomStackFrame) (h : ∀ f ∈ l, frameMatches t name f = false) :
    searchAux t name l = none := by
  induction l with
  | nil => rfl
  | cons a l ih =>
    rw [searchAux_cons, h a (List.mem_cons_self a l)]
    simp only [Bool.false_eq_true, if_false]
    exact ih (fun f hf => h f (List.mem_cons_of_mem a hf))

lemma searchAux_append_of_none (t : DomNodeType) (name : String)
    (l1 l2 : List DomStackFrame)
    (h : ∀ f ∈ l1, frameMatches t name f = false) :
    searchAux t name (l1 ++ l2) = searchAux t name l2 := by
  induction l1 with
  | nil => rfl
  | cons a l ih =>
    rw [List.cons_append, searchAux_cons, h a (List.mem_cons_self a l)]
    simp only [Bool.false_eq_true, if_false]
    exact ih (fun f hf => h f (List.mem_cons_of_mem a hf))

/-- When no frame matches, the search reports "not found". -/
lemma search_none (stack : DomStack) (t : DomNodeType) (name : String)
    (h : ∀ f ∈ stack.states, frameMatches t name f = false) :
    search_dom_stack stack t name = none := by
  unfold search_dom_stack
  exact searchAux_eq_none t name _ (fun f hf => h f (List.mem_reverse.mp hf))

/-- When the frame at index `i` matches and nothing above it does, the
search returns exactly index `i` — the nearest match from the top. -/
lemma search_finds (stack : DomStack) (t : DomNodeType) (name : String)
    (i : Nat) (tf : DomStackFrame)
    (hget : stack.states.get? i = some tf)
    (hm : frameMatches t name tf = true)
    (habove : ∀ f ∈ stack.states.drop (i + 1), frameMatches t name f = false) :
    search_dom_stack stack t name = some i := by
  have hi : i < stack.states.length := by
    by_contra hle
    rw [List.get?_eq_none.mpr (Nat.le_of_not_lt hle)] at hget
    exact Option.noConfusion hget
  have hgetv : stack.states.get ⟨i, hi⟩ = tf := by
    have h5 := List.get?_eq_get hi
    rw [h5] at hget
    exact Option.some.inj hget
  have hdecomp : stack.states =
      stack.states.take i ++ stack.states.get ⟨i, hi⟩ :: stack.states.drop (i + 1) := by
    conv_lhs => rw [← List.take_append_drop i stack.states]
    rw [List.drop_eq_get_cons hi]
  unfold search_dom_stack
  conv_lhs => rw [hdecomp]
  rw [hgetv]
  rw [List.reverse_append, List.reverse_cons, List.append_assoc]
  rw [searchAux_append_of_none t name _ _
    (fun f hf => habove f (List.mem_reverse.mp hf))]
  rw [List.singleton_append, searchAux_cons, hm]
  simp only [if_true, List.length_reverse, List.length_take]
  exact congrArg some (Nat.min_eq_left (Nat.le_of_lt hi))

/-- The unwind loop pops everything from the top down to and including
the frame at index `i`, leaving the frames below it and emitting the exit
events top-to-root, all toward the target frame's node. -/
lemma unwindLoop_spec (i : Nat) (k : Nat) :
    ∀ (stack : DomStack) (tf : DomStackFrame),
      stack.depth = i + 1 + k →
      stack.states.get? i = some tf →
      (unwindLoop i stack.depth stack).1.states = stack.states.take i ∧
      (unwindLoop i stack.depth stack).2 =
        expectedUnwindTrace (stack.states.drop i) tf.node := by
  induction k with
  | zero =>
    intro stack tf hd hget
    have hlen0 : stack.states.length = i + 1 := by
      rw [DomStack.depth] at hd
      omega
    have hne : stack.states ≠ [] := by
      intro hnil
      rw [hnil] at hlen0
      exact absurd hlen0 (by simp)
    have hdecomp := (List.dropLast_append_getLast hne).symm
    have hlast : stack.states.getLast hne = tf := by
      have h1 := List.getLast?_eq_getLast stack.states hne
      have h2 := List.getLast?_eq_get? stack.states
      rw [h1] at h2
      have h3 : stack.states.length - 1 = i := by omega
      rw [h3, hget] at h2
      exact Option.some.inj h2
    have hdo := do_pop_concat stack stack.states.dropLast
      (stack.states.getLast hne) hdecomp (i : Int)
    have hhit : ((stack.depth : Int) - 1 = (i : Int)) := by
      rw [hd]; omega
    have harg : parentNodeAt stack (i : Int) = some tf.node :=
      parentNodeAt_of_get stack i tf hget
    have hdrop : stack.states.drop i = [tf] := by
      have hi : i < stack.states.length := by omega
      have h4 := List.drop_eq_get_cons hi
      have h5 := List.get?_eq_get hi
      rw [h5] at hget
      rw [Option.some.inj hget] at h4
      rw [h4, List.drop_eq_nil_of_le (by omega)]
    rw [hd]
    simp only [Nat.add_zero, unwindLoop]
    rw [hdo]
    rw [if_pos (decide_eq_true hhit)]
    dsimp only
    constructor
    · rw [List.dropLast_eq_take]
      congr 1
      omega
    · rw [hlast]
      simp only [harg]
      rw [hdrop]
      simp [expectedUnwindTrace, frameExitEvents]
  | succ k ih =>
    intro stack tf hd hget
    have hlen : stack.states.length = i + 1 + (k + 1) := by
      rw [DomStack.depth] at hd
      omega
    have hne : stack.states ≠ [] := by
      intro hnil
      rw [hnil] at hlen
      simp only [List.length_nil] at hlen
      omega
    have hdecomp := (List.dropLast_append_getLast hne).symm
    have hdo := do_pop_concat stack stack.states.dropLast
      (stack.states.getLast hne) hdecomp (i : Int)
    have hmiss : ¬ ((stack.depth : Int) - 1 = (i : Int)) := by
      rw [hd]; omega
    have harg : parentNodeAt stack (i : Int) = some tf.node :=
      parentNodeAt_of_get stack i tf hget
    have hdl : stack.states.dropLast = stack.states.take (i + 1 + k) := by
      rw [List.dropLast_eq_take]
      congr 1
      omega
    have hget2 : stack.states.dropLast.get? i = some tf := by
      rw [hdl, List.get?_take (by omega)]
      exact hget
    have hd' : stack.depth = i + 1 + k + 1 := by
      rw [DomStack.depth]
      omega
    rw [hd']
    simp only [unwindLoop]
    rw [hdo]
    rw [if_neg (by simp only [decide_eq_true_eq]; exact hmiss)]
    dsimp only
    have hrdepth : (DomStack.mk stack.states.dropLast stack.callbacks
        stack.object_size stack.max_depth).depth = i + 1 + k := by
      simp only [DomStack.depth, List.length_dropLast, hlen]
      omega
    have hih := ih (DomStack.mk stack.states.dropLast stack.callbacks
      stack.object_size stack.max_depth) tf hrdepth hget2
    rw [hrdepth] at hih
    rcases hih with ⟨h1, h2⟩
    constructor
    · dsimp only at h1
      rw [h1, hdl, List.take_take, Nat.min_eq_left (by omega)]
    · dsimp only at h2
      rw [h2]
      have hsplit : stack.states.drop i =
          stack.states.dropLast.drop i ++ [stack.states.getLast hne] := by
        conv_lhs => rw [hdecomp]
        rw [List.drop_append_eq_append_drop]
        have h6 : i - stack.states.dropLast.length = 0 := by
          rw [List.length_dropLast, hlen]
          omega
        rw [h6, List.drop_zero]
      rw [hsplit, expectedUnwindTrace_concat]
      simp only [harg, frameExitEvents]

/-- Claim C8: UnwindTo with a matching frame pops from the top down to
and including the nearest matching ancestor, the exit callbacks fire in
top-to-root order each receiving the target frame's node, and the final
frames are exactly those below the target (final depth = the target's
original depth); with no match, the stack is untouched and nothing is
invoked. -/
theorem unwind_pops_to_nearest_matching_ancestor (stack : DomStack)
    (t : DomNodeType) (name : String) :
    ((∀ f ∈ stack.states, frameMatches t name f = false) →
      pop_dom_nodes stack t name = (stack, [])) ∧
    (∀ (i : Nat) (tf : DomStackFrame),
      stack.states.get? i = some tf →
      frameMatches t name tf = true →
      (∀ f ∈ stack.states.drop (i + 1), frameMatches t name f = false) →
      (pop_dom_nodes stack t name).1.states = stack.states.take i ∧
      (pop_dom_nodes stack t name).2 =
        expectedUnwindTrace (stack.states.drop i) tf.node) := by
  constructor
  · intro h
    unfold pop_dom_nodes
    rcases hp : dom_stack_has_parents stack with _ | _
    · simp
    · simp only [Bool.true_eq_false, if_false]
      rw [search_none stack t name h]
  · intro i tf hget hm habove
    have hi : i < stack.states.length := by
      by_contra hle
      rw [List.get?_eq_none.mpr (Nat.le_of_not_lt hle)] at hget
      exact Option.noConfusion hget
    have hp : dom_stack_has_parents stack = true := by
      simp only [dom_stack_has_parents, DomStack.depth]
      simp only [gt_iff_lt, decide_eq_true_eq]
      omega
    unfold pop_dom_nodes
    rw [hp]
    simp only [Bool.true_eq_false, if_false]
    rw [search_finds stack t name i tf hget hm habove]
    exact unwindLoop_spec i (stack.depth - i - 1) stack tf
      (by rw [DomStack.depth]; omega) hget

/-- Claim C8 witness: unwinding the Document/div/span/text stack to
Element "div" leaves only the Document frame and fires the exit callbacks
13, 12, 11 in top-to-root order, each with div's node. -/
theorem unwind_pops_to_nearest_matching_ancestor_witness :
    (pop_dom_nodes exUnwindStack .elementT "div").1.states =
      exUnwindStack.states.take 1 ∧
    (pop_dom_nodes exUnwindStack .elementT "div").2 =
      expectedUnwindTrace (exUnwindStack.states.drop 1) exDiv :=
  (unwind_pops_to_nearest_matching_ancestor exUnwindStack .elementT "div").2
    1 (mkFrame exDiv (some (exitCb 11))) rfl rfl (by decide)

/-- Claim C9 counterexample: in the Document → div → span → Text walk
with all-accepting entry callbacks, the popped-frame order is not
span, div, Document — the Text node also receives a frame, which is
popped first. -/
theorem walk_scenario_pop_order_counterexample :
    poppedNodes (walk_dom_nodes allocOK exWalkStack exDoc 12).2 ≠
      [exSpan, exDiv, exDoc] := by
  intro h
  have h4 : (poppedNodes (walk_dom_nodes allocOK exWalkStack exDoc 12).2).length = 4 := rfl
  rw [h] at h4
  simp at h4

/-- Claim C9 as amended: the walk over Document → div → span → Text with
all-accepting entry callbacks visits (pushes) the nodes in the order
Document, div, span, Text, and the frames are unwound (popped) in the
order Text, span, div, Document, after which the depth returns to its
pre-walk value. -/
theorem walk_scenario_visit_and_pop_order :
    visitedNodes (walk_dom_nodes allocOK exWalkStack exDoc 12).2 =
      [exDoc, exDiv, exSpan, exText] ∧
    poppedNodes (walk_dom_nodes allocOK exWalkStack exDoc 12).2 =
      [exText, exSpan, exDiv, exDoc] ∧
    (walk_dom_nodes allocOK exWalkStack exDoc 12).1.depth = 0 ∧
    exWalkStack.depth = 0 :=
  ⟨rfl, rfl, rfl, rfl⟩

/-! Claim C10: a failed child push makes the walk pop the parent frame in
the same iteration. -/

/-- Decompose a stack around its top frame. -/
lemma states_eq_concat_of_getLast (stack : DomStack) (top : DomStackFrame)
    (h : stack.states.getLast? = some top) :
    stack.states = stack.states.dropLast ++ [top] := by
  have hne : stack.states ≠ [] := by
    intro hnil
    rw [hnil] at h
    exact Option.noConfusion h
  have h1 := List.dropLast_append_getLast hne
  have h2 : stack.states.getLast hne = top := by
    rw [List.getLast?_eq_getLast stack.states hne] at h
    exact Option.some.inj h
  rw [h2] at h1
  exact h1.symm

/-- A push that returned NULL left the stack unchanged. -/
lemma push_failed_stack_eq (s : DomStack) (n : DomNode) (a : AllocOracle)
    (h : (push_dom_node s n a).ret = none) :
    (push_dom_node s n a).stack = s := by
  unfold push_dom_node at h ⊢
  split_ifs at h ⊢
  all_goals try rfl
  all_goals (
    rcases hc : s.callbacks n.ntype with _ | cb
    · simp [hc, PushResult.ret] at h
    · rcases hf : cb.fn n with _ | nn
      · simp [hc, hf]
      · simp [hc, hf, PushResult.ret] at h)

/-- Popping the top frame removes exactly it and visits nothing. -/
lemma popWithEvents_concat (stack : DomStack) (l : List DomStackFrame)
    (f : DomStackFrame) (h : stack.states = l ++ [f]) :
    (popWithEvents stack).1.states = l ∧
    visitedNodes (popWithEvents stack).2 = [] := by
  have hlast : stack.states.getLast? = some f := by
    rw [h]; exact List.getLast?_concat l
  have hne : stack.states ≠ [] := by
    rw [h]; simp
  have hp : dom_stack_has_parents stack = true := by
    simp [dom_stack_has_parents, DomStack.depth, List.length_pos, hne]
  unfold popWithEvents pop_dom_node
  rw [hlast, hp]
  simp only [Bool.true_eq_false, if_false]
  rw [do_pop_concat stack l f h ((stack.depth : Int) - 2)]
  refine ⟨rfl, ?_⟩
  rcases hfc : f.callback with _ | cb <;> simp [hfc, visitedNodes]

/-- A pop never reports a failed push. -/
lemma popWithEvents_no_pushFailed (stack : DomStack) (c : DomNode) :
    (popWithEvents stack).2.head? ≠ some (.pushFailed c) := by
  unfold popWithEvents
  rcases hlast : stack.states.getLast? with _ | top
  · simp
  · have hdecomp := states_eq_concat_of_getLast stack top hlast
    unfold pop_dom_node
    rcases hp : dom_stack_has_parents stack with _ | _
    · simp
    · simp only [Bool.true_eq_false, if_false]
      rw [do_pop_concat stack stack.states.dropLast top hdecomp ((stack.depth : Int) - 2)]
      rcases hfc : top.callback with _ | cb <;> simp [hfc]

/-- Claim C10: whenever an iteration of the walk loop attempts to push
the child at the cursor and the push fails (for any reason — rejection,
depth exceeded, or allocation failure), the current parent frame is
popped in that same iteration — the resulting frames are exactly the old
ones minus the top — and the iteration visits no node, so the parent's
unconsumed later children (and any not-yet-started secondary collection)
are never iterated from that frame.  Demonstrated concretely: rejecting
the middle Text child "bad" of Element "p" means the later sibling "t3"
is never visited, and rejecting the attribute of Element "q" means its
never-started children list (Text "k") is never visited. -/
theorem walk_child_push_failure_pops_parent :
    (∀ (alloc : AllocOracle) (stack : DomStack) (state0 : DomStackFrame) (child : DomNode),
      stack.states.getLast? = some state0 →
      (walkIter alloc stack).2.head? = some (.pushFailed child) →
      (walkIter alloc stack).1.states = stack.states.dropLast ∧
      visitedNodes (walkIter alloc stack).2 = []) ∧
    visitedNodes (walk_dom_nodes allocOK exRejBadStack exP 12).2 = [exP, exT1] ∧
    (walk_dom_nodes allocOK exRejBadStack exP 12).1.depth = 0 ∧
    visitedNodes (walk_dom_nodes allocOK exRejBadStack exQ 12).2 = [exQ] := by
  refine ⟨?_, rfl, rfl, rfl⟩
  intro alloc stack state0 child htop hhead
  simp only [walkIter, htop] at hhead ⊢
  by_cases hm : is_dom_node_list_member
      (listDeref (walkAdvance state0).node (walkAdvance state0).list)
      (walkAdvance state0).index = true
  · simp only [hm, if_true] at hhead ⊢
    rcases ho : (push_dom_node
        (setTopFrame stack { walkAdvance state0 with index := (walkAdvance state0).index + 1 })
        (((listDeref (walkAdvance state0).node (walkAdvance state0).list).getD []).getD
          (walkAdvance state0).index (.leaf .textL "")) alloc).outcome with _ | _ | _ | _ | n
    pick_goal 5
    · simp only [ho, List.head?_cons, Option.some.injEq] at hhead
      exact absurd hhead (by simp)
    all_goals (
      simp only [ho] at hhead ⊢
      have hret : (push_dom_node
          (setTopFrame stack { walkAdvance state0 with index := (walkAdvance state0).index + 1 })
          (((listDeref (walkAdvance state0).node (walkAdvance state0).list).getD []).getD
            (walkAdvance state0).index (.leaf .textL "")) alloc).ret = none := by
        unfold PushResult.ret
        rw [ho]
      have hstk := push_failed_stack_eq _ _ _ hret
      rw [hstk]
      have hpop := popWithEvents_concat
        (setTopFrame stack { walkAdvance state0 with index := (walkAdvance state0).index + 1 })
        stack.states.dropLast
        { walkAdvance state0 with index := (walkAdvance state0).index + 1 }
        (by simp [setTopFrame])
      refine ⟨hpop.1, ?_⟩
      simp only [visitedNodes, List.filterMap_cons]
      exact hpop.2)
  · simp only [hm, Bool.false_eq_true, if_false] at hhead ⊢
    exact absurd hhead (popWithEvents_no_pushFailed _ child)

/-- Claim C10 witness: a single-frame stack on Element "p" with its
cursor at the to-be-rejected Text "bad"; the iteration pops the frame and
visits nothing. -/
theorem walk_child_push_failure_pops_parent_witness :
    (walkIter allocOK exIterStack).1.states = exIterStack.states.dropLast ∧
    visitedNodes (walkIter allocOK exIterStack).2 = [] :=
  walk_child_push_failure_pops_parent.1 allocOK exIterStack
    ⟨exP, none, .secondaryP, 1, none⟩ exBad rfl rfl

end DomStackProof
